import Mathlib

/-!
Verification of the cldfzenodo library's identifier normalization, record
model, metadata parsing, pagination and download logic, shallowly embedded
from `src/cldfzenodo/record.py`, `src/cldfzenodo/api.py` and
`src/cldfzenodo/search.py`.

Python strings are embedded as `String` (operated on via `List Char` for
kernel-friendly computation); fallible Python code (assertions, raised
exceptions) is embedded as `Except String`.
-/

set_option maxRecDepth 8192

deriving instance DecidableEq for Except

namespace Cldfzenodo

/-! ## Model of `urllib.parse.urlparse`

Only the fields used by the repository (`netloc`, `path`) are modelled, and
query/fragment components are not split off the path (no input handled by
the repository carries them; the `netloc` component is unaffected either
way). The scheme is split off at the first colon when the leading component
is a well-formed scheme; a network location is present exactly when the
remainder starts with two slashes, and extends to the next slash, question
mark or hash.
-/

structure UrlParts where
  scheme : String
  netloc : String
  path : String
deriving Repr, DecidableEq

def isSchemeChar (c : Char) : Bool :=
  c.isAlpha || c.isDigit || c = '+' || c = '-' || c = '.'

def schemeSplit (cs : List Char) : List Char × List Char :=
  let pre := cs.takeWhile (fun c => c ≠ ':')
  match cs.drop pre.length with
  | ':' :: rest =>
    if (match pre with
        | [] => false
        | c :: tl => c.isAlpha && tl.all isSchemeChar) then
      (pre.map Char.toLower, rest)
    else ([], cs)
  | _ => ([], cs)

def notNetlocEnd (c : Char) : Bool :=
  c ≠ '/' && c ≠ '?' && c ≠ '#'

def urlparse (s : String) : UrlParts :=
  match schemeSplit s.data with
  | (sch, '/' :: '/' :: r) =>
    let nl := r.takeWhile notNetlocEnd
    ⟨sch.asString, nl.asString, (r.drop nl.length).asString⟩
  | (sch, rest) => ⟨sch.asString, "", rest.asString⟩

/-! ## Python `str.split(sep)` for a single-character separator

Python semantics: `''.split('/') == ['']`, adjacent separators produce
empty components. -/

def splitChar (sep : Char) : List Char → List (List Char)
  | [] => [[]]
  | c :: rest =>
    let r := splitChar sep rest
    if c = sep then [] :: r
    else
      match r with
      | h :: t => (c :: h) :: t
      | [] => [[c]]

/-! ## `get_doi` (record.py lines 92-97)

```python
def get_doi(doi_or_url):
    url = urllib.parse.urlparse(doi_or_url)
    if not url.netloc:
        return url.path
    assert url.netloc == 'doi.org'
    return url.path[1:]
```
-/

def get_doi (doi_or_url : String) : Except String String :=
  let url := urlparse doi_or_url
  if url.netloc = "" then Except.ok url.path
  else if url.netloc = "doi.org" then Except.ok (url.path.data.drop 1).asString
  else Except.error "AssertionError"

/-! ## `GithubRepos` (record.py lines 51-89) -/

structure GithubRepos where
  org : String
  name : String
  tag : Option String
deriving Repr, DecidableEq

/-- Embedding of `GithubRepos.from_url` (record.py lines 66-74).

```python
url = urllib.parse.urlparse(url)
if url.netloc == 'github.com':
    path = url.path.split('/')
    return cls(
        org=path[1],
        name=path[2],
        tag=path[4] if len(path) > 4 and path[3] == 'tree' else None)
```
`path[1]` / `path[2]` raise `IndexError` when the split path is too short;
the implicit fall-through for other network locations returns `None`. -/
def GithubRepos.from_url (url : String) : Except String (Option GithubRepos) :=
  let u := urlparse url
  if u.netloc = "github.com" then
    match splitChar '/' u.path.data with
    | _ :: p1 :: p2 :: rest =>
      Except.ok (some
        { org := p1.asString
          name := p2.asString
          tag :=
            match rest with
            | p3 :: p4 :: _ => if p3.asString = "tree" then some p4.asString else none
            | _ => none })
    | _ => Except.error "IndexError"
  else Except.ok none

def GithubRepos.clone_url (g : GithubRepos) : String :=
  "https://github.com/" ++ g.org ++ "/" ++ g.name ++ ".git"

/-- Embedding of `GithubRepos.release_url` (record.py lines 83-89): only produced for a
truthy (present, non-empty) tag. -/
def GithubRepos.release_url (g : GithubRepos) : Option String :=
  match g.tag with
  | some t =>
    if t = "" then none
    else some ("https://github.com/" ++ g.org ++ "/" ++ g.name ++
      "/archive/refs/tags/" ++ t ++ ".zip")
  | none => none

/-! ## Creators normalization (record.py lines 100-108)

`get_creators` delegates name splitting to the external `nameparser`
library (`nameparser.HumanName`), which is not part of this repository.
`humanNameLastFirst` is a model of the composition
`'{}, {}'.format(name.last, first_plus_middle)` for the two input shapes
occurring here: an already comma-separated "Last, First" name (kept, with
components trimmed) and a plain "First [Middle ...] Last" name (last word
becomes the family name, the remaining words the given names). -/

def pyStrip (s : List Char) : List Char :=
  ((s.dropWhile (fun c => c = ' ')).reverse.dropWhile (fun c => c = ' ')).reverse

def joinWords (ws : List (List Char)) : List Char :=
  (ws.intersperse [' ']).foldr (fun a b => a ++ b) []

def humanNameLastFirst (s : String) : String :=
  let cs := s.data
  if cs.contains ',' then
    let last := pyStrip (cs.takeWhile (fun c => c ≠ ','))
    let rest := pyStrip ((cs.dropWhile (fun c => c ≠ ',')).drop 1)
    (last ++ ", ".data ++ rest).asString
  else
    match ((splitChar ' ' cs).filter (fun w => w ≠ [])).reverse with
    | [] => ", "
    | [w] => (", ".data ++ w).asString
    | last :: revInit => (last ++ ", ".data ++ joinWords revInit.reverse).asString

def get_creators (names : List String) : List String :=
  names.map humanNameLastFirst

/-! ## DOI validation (record.py lines 25-26 and 120-122)

`attr.validators.matches_re(r'10\.5281/zenodo\.[0-9]+')` performs a full
match: the string must consist of the literal stem `10.5281/zenodo.`
followed by one or more digits. -/

def zenodoDoiStem : List Char := "10.5281/zenodo.".data

def doiMatches (s : String) : Bool :=
  zenodoDoiStem.isPrefixOf s.data &&
    (let rest := s.data.drop zenodoDoiStem.length
     decide (rest ≠ []) && rest.all Char.isDigit)

/-! ## Python `str.replace(pat, '')` (used by `Record.id`)

Deletes every non-overlapping occurrence of `pat`, scanning left to right.
An empty pattern leaves the string unchanged (as `s.replace('', '')` does). -/

def pyDeleteOccs (pat : List Char) (s : List Char) : List Char :=
  match s with
  | [] => []
  | c :: rest =>
    if h : pat ≠ [] ∧ pat.isPrefixOf (c :: rest) = true then
      pyDeleteOccs pat ((c :: rest).drop pat.length)
    else c :: pyDeleteOccs pat rest
termination_by s.length
decreasing_by
  · simp only [List.length_drop, List.length_cons]
    have hp : 0 < pat.length := List.length_pos.mpr h.1
    omega
  · simp only [List.length_cons]
    omega

/-! ## `Record` (record.py lines 111-152) -/

structure Record where
  doi : String
  title : String
  creators : List String
  year : Option String
  license : Option String
  download_urls : List String
  keywords : Option (List String)
  communities : List String
  github_repos : Option GithubRepos
  closed_access : Bool
  version : Option String
  concept_doi : Option String
deriving Repr, DecidableEq

/-- Embedding of `Record.download_url` (record.py lines 139-141). -/
def Record.download_url (r : Record) : Option String :=
  match r.download_urls with
  | [] => none
  | u :: _ => some u

/-- Python truthiness of `self.download_url`: falsy when there is no
download URL or the first one is the empty string. -/
def Record.download_url_falsy (r : Record) : Bool :=
  match r.download_urls with
  | [] => true
  | u :: _ => u = ""

/-- Embedding of `Record.id` (record.py lines 143-148):
`self.doi.replace('10.5281/zenodo.', '')`. -/
def Record.id (r : Record) : String :=
  (pyDeleteOccs zenodoDoiStem r.doi.data).asString

/-- Embedding of `Record.version_tag` (record.py lines 150-152):
`self.version or (self.github_repos.tag if self.github_repos else None)`,
with Python `or` falling through on a falsy (absent or empty) version. -/
def Record.version_tag (r : Record) : Option String :=
  let fallback := match r.github_repos with
    | some g => g.tag
    | none => none
  match r.version with
  | some v => if v = "" then fallback else some v
  | none => fallback

/-- The `Record` instance as assembled by the attrs field converters, with
`d` the already-converted value of the `doi` field: `creators` passes
through `get_creators`, `communities` drops falsy (absent or empty)
entries. -/
def Record.build (d title : String) (creators : List String)
    (year license : Option String) (download_urls : List String)
    (keywords : Option (List String)) (communities : List (Option String))
    (github_repos : Option GithubRepos) (closed_access : Bool)
    (version concept_doi : Option String) : Record :=
  { doi := d
    title := title
    creators := get_creators creators
    year := year
    license := license
    download_urls := download_urls
    keywords := keywords
    communities := communities.filterMap (fun o =>
      match o with
      | some s => if s = "" then none else some s
      | none => none)
    github_repos := github_repos
    closed_access := closed_access
    version := version
    concept_doi := concept_doi }

/-- Construction of a `Record` via the attrs machinery (record.py lines
111-137): the `doi` field is passed through the `get_doi` converter (which
can raise `AssertionError`), then validated against the Zenodo DOI pattern
(`ValueError` on failure); finally `__attrs_post_init__` asserts
`closed_access` whenever `download_url` is falsy. -/
def Record.make (doi title : String) (creators : List String)
    (year license : Option String) (download_urls : List String)
    (keywords : Option (List String)) (communities : List (Option String))
    (github_repos : Option GithubRepos) (closed_access : Bool)
    (version concept_doi : Option String) : Except String Record :=
  match get_doi doi with
  | Except.error e => Except.error e
  | Except.ok d =>
    if doiMatches d then
      if (Record.build d title creators year license download_urls keywords communities
          github_repos closed_access version concept_doi).download_url_falsy then
        if (Record.build d title creators year license download_urls keywords communities
            github_repos closed_access version concept_doi).closed_access then
          Except.ok (Record.build d title creators year license download_urls keywords
            communities github_repos closed_access version concept_doi)
        else Except.error "AssertionError"
      else
        Except.ok (Record.build d title creators year license download_urls keywords
          communities github_repos closed_access version concept_doi)
    else Except.error "ValueError"

/-! ## `Record.download` (record.py lines 245-283)

The I/O-free skeleton of `download` is modelled in two layers:
`downloadPlan` gives the error raised or the list of URLs fetched
(lines 269-276: raise when `download_urls` is empty, else prefer the
GitHub release URL when one exists); `downloadResult` additionally models
the destination directory contents and the single-wrapper-directory unwrap
step (lines 266 and 277-282), with `destBefore` the entries present in the
destination before the call and `fetched` the entries the fetched archives
unpack to. -/

inductive FsEntry where
  | file (name : String) : FsEntry
  | dir (name : String) (children : List FsEntry) : FsEntry

def FsEntry.isDir : FsEntry → Bool
  | .dir _ _ => true
  | .file _ => false

def Record.downloadPlan (r : Record) : Except String (List String) :=
  if r.download_urls = [] then Except.error "No downloadable resources"
  else
    match r.github_repos with
    | some gh =>
      match gh.release_url with
      | some u => Except.ok [u]
      | none => Except.ok r.download_urls
    | none => Except.ok r.download_urls

def Record.downloadResult (r : Record) (destBefore fetched : List FsEntry) :
    Except String (List FsEntry) :=
  let is_empty := destBefore.isEmpty
  match r.downloadPlan with
  | Except.error e => Except.error e
  | Except.ok _ =>
    let inner := destBefore ++ fetched
    Except.ok
      (if is_empty then
        match inner with
        | [FsEntry.dir _ children] => children
        | _ => inner
      else inner)

/-! ## Paginated results (api.py lines 37-71 and 171-194)

`ResultsState` carries the mutable state of a `Results` object (`_page`,
`more`, `error`); `resultsNext` is `Results.next`, with the HTTP transport
abstracted as `fetch : page number → hits or HTTP error` and
`Record.from_dict` abstracted as `conv` (the hit type `α` is opaque here).
On a transport error the page counter is rolled back, the error is
recorded, and the error propagates; `more` is only updated on success.
`iterRecords` is `Api.iter_records`: one unconditional `next`, then
`next` while `more` holds, with explicit fuel bounding the number of loop
iterations (the Python loop is unbounded). -/

structure ResultsState (ε : Type) where
  page : Nat
  more : Bool
  error : Option ε
deriving Repr

def resultsNext {ε α β : Type} (fetch : Nat → Except ε (List α)) (conv : α → β)
    (pageSize : Nat) (s : ResultsState ε) : Except ε (List β) × ResultsState ε :=
  let page := s.page + 1
  match fetch page with
  | Except.error e => (Except.error e, ⟨s.page, s.more, some e⟩)
  | Except.ok hits =>
    (Except.ok (hits.map conv), ⟨page, decide (pageSize ≤ hits.length), s.error⟩)

def iterRecordsFrom {ε α β : Type} (fetch : Nat → Except ε (List α)) (conv : α → β)
    (pageSize : Nat) (s : ResultsState ε) : Nat → Except ε (List β)
  | 0 => Except.ok []
  | fuel + 1 =>
    if s.more then
      match resultsNext fetch conv pageSize s with
      | (Except.error e, _) => Except.error e
      | (Except.ok hits, s') =>
        match iterRecordsFrom fetch conv pageSize s' fuel with
        | Except.error e => Except.error e
        | Except.ok rest => Except.ok (hits ++ rest)
    else Except.ok []

def iterRecords {ε α β : Type} (fetch : Nat → Except ε (List α)) (conv : α → β)
    (pageSize : Nat) (fuel : Nat) : Except ε (List β) :=
  match resultsNext fetch conv pageSize ⟨0, true, none⟩ with
  | (Except.error e, _) => Except.error e
  | (Except.ok hits, s1) =>
    match iterRecordsFrom fetch conv pageSize s1 fuel with
    | Except.error e => Except.error e
    | Except.ok rest => Except.ok (hits ++ rest)

/-! ## `Api.get_record` version scan (api.py lines 145-169)

With `conceptdoi` and `version` given, the code scans the records yielded
by `iter_records(conceptdoi=..., allversions=True)` (here abstracted as the
list `recs`) and returns the first one whose `version`, with all leading
`'v'` characters stripped (`str.lstrip('v')`), equals the requested version
stripped the same way; `None` when the scan is exhausted. A record whose
`version` attribute is `None` makes `rec.version.lstrip` raise
`AttributeError`. -/

def lstripV : List Char → List Char
  | [] => []
  | c :: rest => if c = 'v' then lstripV rest else c :: rest

def versionMatches (rv v : String) : Bool :=
  lstripV rv.data = lstripV v.data

def getRecordByVersion (recs : List Record) (version : String) :
    Except String (Option Record) :=
  match recs with
  | [] => Except.ok none
  | r :: rest =>
    match r.version with
    | none => Except.error "AttributeError"
    | some rv =>
      if versionMatches rv version then Except.ok (some r)
      else getRecordByVersion rest version

/-! ## JSON search hit parser (search.py lines 36-62)

A search hit is embedded structurally, keeping exactly the JSON paths the
parser reads. Optional JSON keys are `Option`s (a key present with JSON
`null` is identified with an absent key, which the repository's uses of
`.get` treat alike). -/

structure HitFile where
  /-- JSON path `f['links']['self']` -/
  links_self : String
deriving Repr, DecidableEq

structure VersionParent where
  pid_type : String
  pid_value : String
deriving Repr, DecidableEq

structure VersionRel where
  parent : Option VersionParent
deriving Repr, DecidableEq

structure RelatedId where
  relation : String
  identifier : String
deriving Repr, DecidableEq

structure HitCommunity where
  identifier : Option String
  id : Option String
deriving Repr, DecidableEq

structure HitMeta where
  title : String
  keywords : Option (List String)
  communities : List HitCommunity
  access_right : String
  /-- the `name` field of each entry of `metadata.creators` -/
  creators : List String
  publication_date : String
  /-- JSON path `metadata.license.id`, absent when either key is missing -/
  license_id : Option String
  version : Option String
  /-- JSON path `metadata.relations.version` -/
  relations_version : List VersionRel
  related_identifiers : List RelatedId
deriving Repr, DecidableEq

structure Hit where
  doi : String
  meta : HitMeta
  files : List HitFile
deriving Repr, DecidableEq

/-- The concept-recid loop of `Results.record` (search.py lines 38-43):
first version relation carrying a parent of pid type `recid`, else
`ValueError('Missing concept recid!')`. -/
def findConceptRecid : List VersionRel → Except String String
  | [] => Except.error "ValueError"
  | v :: rest =>
    match v.parent with
    | some p =>
      if p.pid_type = "recid" then Except.ok p.pid_value
      else findConceptRecid rest
    | none => findConceptRecid rest

/-- The related-identifiers loop of `Results.record` (search.py lines
59-61): every `isSupplementTo` entry overwrites `kw['github_repos']` with
`GithubRepos.from_url(...)` (no break, so the last one wins, and a `None`
parse result overwrites too). -/
def ghFromRelated (ris : List RelatedId) : Except String (Option GithubRepos) :=
  ris.foldlM
    (fun acc ri =>
      if ri.relation = "isSupplementTo" then GithubRepos.from_url ri.identifier
      else Except.ok acc)
    none

/-- Embedding of `Results.record` (search.py lines 36-62): `download_urls` is set to the
singleton list holding the first file's self-link when the hit has files
(`if d.get('files'): kw['download_urls'] = [d['files'][0]['links']['self']]`),
else left at its default. -/
def searchRecord (d : Hit) : Except String Record :=
  match findConceptRecid d.meta.relations_version with
  | Except.error e => Except.error e
  | Except.ok crid =>
    match ghFromRelated d.meta.related_identifiers with
    | Except.error e => Except.error e
    | Except.ok gh =>
      Record.make d.doi d.meta.title d.meta.creators
        (some ((splitChar '-' d.meta.publication_date.data).headD []).asString)
        d.meta.license_id
        (match d.files with
         | [] => []
         | f :: _ => [f.links_self])
        d.meta.keywords
        (d.meta.communities.map (fun c =>
          match c.identifier with
          | some s => some s
          | none => c.id))
        gh
        (d.meta.access_right = "closed")
        d.meta.version
        (some ("10.5281/zenodo." ++ crid))

/-! ## Concrete inputs used by the claim theorems and witnesses -/

/-- A mocked transport: page 1 returns 10 hits, page 2 returns 3 hits, and
any later page would return 10 further hits (so that termination after
page 2 is visibly due to the short page, not to data running out). -/
def fetchTwoPages : Nat → Except String (List Nat) := fun page =>
  if page = 1 then Except.ok (List.range 10)
  else if page = 2 then Except.ok [100, 101, 102]
  else Except.ok (List.range' 200 10)

/-- A transport that fails with an HTTP error on every page. -/
def fetchHttpErr : Nat → Except String (List Nat) := fun _ =>
  Except.error "HTTPError"

/-- A recovered transport used to retry after `fetchHttpErr`. -/
def fetchRetryOk : Nat → Except String (List Nat) := fun page =>
  Except.ok [10 * page, 10 * page + 1]

/-- A search hit with two file entries, the first of which carries a
trailing `/content` suffix. -/
def hitC3 : Hit :=
  ⟨"10.5281/zenodo.456",
    ⟨"t", some [], [], "open", [], "2021-01-01", none, some "v1.0",
      [⟨some ⟨"recid", "123"⟩⟩], []⟩,
    [⟨"https://zenodo.org/api/files/u1/content"⟩,
      ⟨"https://zenodo.org/api/files/u2"⟩]⟩

/-- The record `Results.record` produces for `hitC3`. -/
def recC3 : Record :=
  ⟨"10.5281/zenodo.456", "t", [], some "2021", none,
    ["https://zenodo.org/api/files/u1/content"], some [], [], none, false,
    some "v1.0", some "10.5281/zenodo.123"⟩

/-- A (necessarily closed-access) record with no download URLs but a
GitHub repository carrying a release tag. -/
def recC4 : Record :=
  ⟨"10.5281/zenodo.77", "t", [], none, none, [], some [], [],
    some ⟨"org", "repo", some "v1.0"⟩, true, none, none⟩

/-- Two versions of one deposit, tagged v1.0 and v1.1. -/
def recV10 : Record :=
  ⟨"10.5281/zenodo.1", "a", [], none, none, ["u"], some [], [], none, false,
    some "v1.0", none⟩

def recV11 : Record :=
  ⟨"10.5281/zenodo.2", "b", [], none, none, ["u"], some [], [], none, false,
    some "v1.1", none⟩

/-- A record with one download URL, used to exercise the unwrap step. -/
def recC9 : Record :=
  ⟨"10.5281/zenodo.9", "t", [], none, none, ["u"], some [], [], none, false,
    none, none⟩

/-- The record built from a valid bare DOI with `closed_access=True`. -/
def recC10 : Record :=
  ⟨"10.5281/zenodo.4691101", "", [], none, none, [], some [], [], none, true,
    none, none⟩

/-! ## Helper lemmas -/

theorem iterRecordsFrom_not_more {ε α β : Type} (fetch : Nat → Except ε (List α))
    (conv : α → β) (pageSize : Nat) (s : ResultsState ε) (h : s.more = false) :
    ∀ fuel, iterRecordsFrom fetch conv pageSize s fuel = Except.ok []
  | 0 => rfl
  | fuel + 1 => by simp [iterRecordsFrom, h]

theorem isPre_append (p t : List Char) : p.isPrefixOf (p ++ t) = true := by
  induction p with
  | nil => cases t <;> rfl
  | cons a as ih => simp [List.isPrefixOf, ih]

theorem isPre_split (p : List Char) : ∀ (l : List Char), p.isPrefixOf l = true →
    l = p ++ l.drop p.length := by
  induction p with
  | nil => intro l _; simp
  | cons a as ih =>
    intro l h
    cases l with
    | nil => simp [List.isPrefixOf] at h
    | cons b bs =>
      simp only [List.isPrefixOf, Bool.and_eq_true, beq_iff_eq] at h
      obtain ⟨rfl, h2⟩ := h
      simpa using ih bs h2

theorem stem_chars :
    zenodoDoiStem =
      ['1', '0', '.', '5', '2', '8', '1', '/', 'z', 'e', 'n', 'o', 'd', 'o', '.'] := by
  decide

theorem digits_no_stem (l : List Char) (h : ∀ c ∈ l, c.isDigit = true) :
    zenodoDoiStem.isPrefixOf l = false := by
  rw [stem_chars]
  match l with
  | [] => rfl
  | [c1] => simp [List.isPrefixOf]
  | [c1, c2] => simp [List.isPrefixOf]
  | c1 :: c2 :: c3 :: rest =>
    have h3 : c3.isDigit = true := h c3 (by simp)
    have hne : ('.' == c3) = false := by
      cases hc : ('.' == c3)
      · rfl
      · rw [← eq_of_beq hc] at h3
        exact absurd h3 (by decide)
    simp [List.isPrefixOf, hne]

theorem pyDeleteOccs_digits : ∀ (l : List Char), (∀ c ∈ l, c.isDigit = true) →
    pyDeleteOccs zenodoDoiStem l = l
  | [], _ => by unfold pyDeleteOccs; rfl
  | c :: rest, h => by
    have hpre : zenodoDoiStem.isPrefixOf (c :: rest) = false := digits_no_stem _ h
    rw [pyDeleteOccs.eq_def]
    simp only [hpre, Bool.false_eq_true, and_false, ne_eq, false_and, dite_false,
      List.cons.injEq, true_and]
    exact pyDeleteOccs_digits rest (fun c hc => h c (List.mem_cons_of_mem _ hc))

theorem pyDeleteOccs_self_append (pat t : List Char) (hp : pat ≠ [])
    (ht : pyDeleteOccs pat t = t) : pyDeleteOccs pat (pat ++ t) = t := by
  cases pat with
  | nil => exact absurd rfl hp
  | cons a as =>
    rw [List.cons_append, pyDeleteOccs.eq_def]
    have hpre : (a :: as).isPrefixOf (a :: (as ++ t)) = true := by
      rw [← List.cons_append]
      exact isPre_append _ _
    simp only [ne_eq, reduceCtorEq, not_false_eq_true, hpre, and_true, true_and, dite_true,
      List.length_cons, List.drop_succ_cons, List.drop_left]
    exact ht

theorem Record.make_ok_fields {doi title : String} {creators : List String}
    {year license : Option String} {download_urls : List String}
    {keywords : Option (List String)} {communities : List (Option String)}
    {github_repos : Option GithubRepos} {closed_access : Bool}
    {version concept_doi : Option String} {r : Record}
    (h : Record.make doi title creators year license download_urls keywords communities
      github_repos closed_access version concept_doi = Except.ok r) :
    doiMatches r.doi = true ∧
    r.download_urls = download_urls ∧
    r.closed_access = closed_access ∧
    (r.download_urls = [] → r.closed_access = true) := by
  unfold Record.make at h
  split at h
  · exact Except.noConfusion h
  next d heq =>
    split at h
    next hm =>
      split at h
      · split at h
        next hclosed =>
          injection h with h'
          subst h'
          exact ⟨hm, rfl, rfl, fun _ => hclosed⟩
        · exact Except.noConfusion h
      next hfalsy =>
        injection h with h'
        subst h'
        refine ⟨hm, rfl, rfl, fun hnil => ?_⟩
        simp only [Record.build] at hnil
        exact absurd (by simp [Record.download_url_falsy, Record.build, hnil]) hfalsy
    · exact Except.noConfusion h

/-! ## Claim C1 -/

/-- C1 (counterexample): contrary to the claim, `get_doi` does not
normalize archive-site URLs: on the numeric record URL
`https://zenodo.org/records/5173799` it raises `AssertionError` instead of
returning the canonical identifier `10.5281/zenodo.5173799`. -/
theorem c1_counterexample :
    get_doi "https://zenodo.org/records/5173799" = Except.error "AssertionError" ∧
    get_doi "https://zenodo.org/records/5173799" ≠ Except.ok "10.5281/zenodo.5173799" := by
  exact ⟨by decide, by decide⟩

/-- C1 (amended): the bare identifier `10.5281/zenodo.5173799` and the
resolver URL `https://doi.org/10.5281/zenodo.5173799` both normalize to the
canonical identifier `10.5281/zenodo.5173799`, while the two archive-site
forms (`https://zenodo.org/doi/10.5281/zenodo.5173799` and
`https://zenodo.org/records/5173799`) are not normalized but fail with an
`AssertionError`. -/
theorem c1_get_doi_forms :
    get_doi "10.5281/zenodo.5173799" = Except.ok "10.5281/zenodo.5173799" ∧
    get_doi "https://doi.org/10.5281/zenodo.5173799" = Except.ok "10.5281/zenodo.5173799" ∧
    get_doi "https://zenodo.org/doi/10.5281/zenodo.5173799" = Except.error "AssertionError" ∧
    get_doi "https://zenodo.org/records/5173799" = Except.error "AssertionError" := by
  exact ⟨by decide, by decide, by decide, by decide⟩

/-! ## Claim C2 -/

/-- C2: with page size 10 and a transport whose first page returns 10 hits
and whose second returns 3 hits, `Api.iter_records` yields exactly the 13
records of the two pages (in order) and then terminates — the third page,
which would return 10 further hits, is never fetched — and this holds for
every positive bound on the number of loop iterations: iteration continues
while a page's hit count is at least the page size and stops at the first
short page. -/
theorem c2_pagination {β : Type} (conv : Nat → β) (fuel : Nat) :
    iterRecords fetchTwoPages conv 10 (fuel + 1) =
      Except.ok ((List.range 10 ++ [100, 101, 102]).map conv) ∧
    ((List.range 10 ++ [100, 101, 102]).map conv).length = 13 := by
  constructor
  · have h2 : iterRecordsFrom fetchTwoPages conv 10 ⟨2, false, none⟩ fuel = Except.ok [] :=
      iterRecordsFrom_not_more _ _ _ _ rfl fuel
    simp [iterRecords, iterRecordsFrom, resultsNext, fetchTwoPages, h2]
  · simp

/-- C2 (witness): the concrete run with fuel bound 3 yields the 13 hits of
the two pages. -/
theorem c2_pagination_witness :
    iterRecords fetchTwoPages (fun h : Nat => h) 10 3 =
      Except.ok ((List.range 10 ++ [100, 101, 102]).map (fun h : Nat => h)) ∧
    ((List.range 10 ++ [100, 101, 102]).map (fun h : Nat => h)).length = 13 :=
  c2_pagination (fun h : Nat => h) 2

/-! ## Claim C7 -/

/-- C7: when the transport fails with an HTTP error while fetching the next
page, `Results.next` propagates the error to the caller (the result is that
error, not an empty success), records it in the error slot, and rolls the
page counter back to its value before the failed fetch — so that a
subsequent `next` call with a recovered transport re-requests and
successfully consumes the very same page. -/
theorem c7_error_rollback {ε α β : Type} (fetch : Nat → Except ε (List α))
    (conv : α → β) (pageSize : Nat) (s : ResultsState ε) (e : ε)
    (h : fetch (s.page + 1) = Except.error e) :
    (resultsNext fetch conv pageSize s).1 = Except.error e ∧
    (resultsNext fetch conv pageSize s).2.page = s.page ∧
    (resultsNext fetch conv pageSize s).2.error = some e ∧
    (∀ (fetch2 : Nat → Except ε (List α)) (hits : List α),
      fetch2 (s.page + 1) = Except.ok hits →
      (resultsNext fetch2 conv pageSize (resultsNext fetch conv pageSize s).2).1 =
        Except.ok (hits.map conv)) := by
  refine ⟨?_, ?_, ?_, ?_⟩
  · simp [resultsNext, h]
  · simp [resultsNext, h]
  · simp [resultsNext, h]
  · intro fetch2 hits h2
    simp [resultsNext, h, h2]

/-- C7 (witness): from page counter 3, a failed fetch of page 4 surfaces
the HTTP error and leaves the counter at 3, and the retry fetches page 4
again, successfully. -/
theorem c7_error_rollback_witness :
    (resultsNext fetchHttpErr (fun n : Nat => n) 10 ⟨3, true, none⟩).1 =
      Except.error "HTTPError" ∧
    (resultsNext fetchHttpErr (fun n : Nat => n) 10 ⟨3, true, none⟩).2.page = 3 ∧
    (resultsNext fetchRetryOk (fun n : Nat => n) 10
        (resultsNext fetchHttpErr (fun n : Nat => n) 10 ⟨3, true, none⟩).2).1 =
      Except.ok [40, 41] := by
  obtain ⟨h1, h2, _, h4⟩ :=
    c7_error_rollback fetchHttpErr (fun n : Nat => n) 10 ⟨3, true, none⟩ "HTTPError" rfl
  refine ⟨h1, h2, ?_⟩
  have := h4 fetchRetryOk [40, 41] rfl
  simpa using this

/-! ## Claim C8 -/

/-- C8 (counterexample): contrary to the claim that every URL not of a
recognized source-hosting shape yields absent rather than an error, a
`github.com` URL lacking a repository path segment makes
`GithubRepos.from_url` raise an `IndexError`. -/
theorem c8_counterexample :
    GithubRepos.from_url "https://github.com/org" = Except.error "IndexError" ∧
    GithubRepos.from_url "https://github.com/org" ≠ Except.ok none := by
  exact ⟨by decide, by decide⟩

/-- C8 (amended): `https://github.com/org/repo/tree/v1.0` parses to a
descriptor with tag `v1.0`, a non-empty clone URL and a release URL;
`https://github.com/org/repo` parses with no tag and no release URL; and
every URL whose network location is not the source-hosting site yields
absent (not an error) — but a `github.com` URL with fewer than two path
segments raises an `IndexError` (shown in the counterexample) rather than
returning absent. -/
theorem c8_from_url :
    GithubRepos.from_url "https://github.com/org/repo/tree/v1.0" =
      Except.ok (some ⟨"org", "repo", some "v1.0"⟩) ∧
    GithubRepos.clone_url ⟨"org", "repo", some "v1.0"⟩ ≠ "" ∧
    GithubRepos.release_url ⟨"org", "repo", some "v1.0"⟩ =
      some "https://github.com/org/repo/archive/refs/tags/v1.0.zip" ∧
    GithubRepos.from_url "https://github.com/org/repo" =
      Except.ok (some ⟨"org", "repo", none⟩) ∧
    GithubRepos.release_url ⟨"org", "repo", none⟩ = none ∧
    (∀ url : String, (urlparse url).netloc ≠ "github.com" →
      GithubRepos.from_url url = Except.ok none) := by
  refine ⟨by decide, by decide, by decide, by decide, by decide, ?_⟩
  intro url h
  unfold GithubRepos.from_url
  rw [if_neg h]

/-- C8 (witness): an unrelated URL parses to absent. -/
theorem c8_from_url_witness :
    GithubRepos.from_url "http://example.com" = Except.ok none :=
  c8_from_url.2.2.2.2.2 "http://example.com" (by decide)

/-! ## Claim C3 -/

/-- C3 (counterexample): for a hit with two file entries, the first
self-link ending in `/content`, the parsed record's `download_urls` is the
unmodified singleton of the first self-link — not the list of all
self-links with trailing `/content` stripped, contrary to the claim. -/
theorem c3_counterexample :
    searchRecord hitC3 = Except.ok recC3 ∧
    recC3.download_urls = ["https://zenodo.org/api/files/u1/content"] ∧
    recC3.download_urls ≠
      ["https://zenodo.org/api/files/u1", "https://zenodo.org/api/files/u2"] := by
  exact ⟨by decide, by decide, by decide⟩

/-- C3 (amended): for every JSON search hit that parses successfully, the
record's `download_urls` is the singleton list holding the first file
entry's self-link verbatim when the hit has file entries, and is empty
otherwise: file entries beyond the first are dropped and no `/content`
suffix is stripped. -/
theorem c3_download_urls (d : Hit) (r : Record) (h : searchRecord d = Except.ok r) :
    r.download_urls =
      (match d.files with
       | [] => []
       | f :: _ => [f.links_self]) := by
  unfold searchRecord at h
  split at h
  · exact Except.noConfusion h
  · split at h
    · exact Except.noConfusion h
    · exact (Record.make_ok_fields h).2.1

/-- C3 (witness): the amended statement evaluated at the two-file hit. -/
theorem c3_download_urls_witness :
    recC3.download_urls =
      (match hitC3.files with
       | [] => []
       | f :: _ => [f.links_self]) :=
  c3_download_urls hitC3 recC3 (by decide)

/-! ## Claim C4 -/

/-- C4 (counterexample): a successfully constructed record with no download
URLs (hence closed access) but a GitHub repository carrying a tag — and
therefore a release archive URL — still fails: `Record.download` raises the
no-downloadable-resource error before ever consulting the GitHub release,
contrary to the claim. -/
theorem c4_counterexample :
    Record.make "10.5281/zenodo.77" "t" [] none none [] (some []) []
        (some ⟨"org", "repo", some "v1.0"⟩) true none none = Except.ok recC4 ∧
    recC4.github_repos.map GithubRepos.release_url =
      some (some "https://github.com/org/repo/archive/refs/tags/v1.0.zip") ∧
    recC4.downloadPlan = Except.error "No downloadable resources" := by
  exact ⟨by decide, by decide, by decide⟩

/-- C4 (amended): `Record.download` raises the no-downloadable-resource
error if and only if the record's `download_urls` is empty — the GitHub
release URL is only consulted after that check, so its presence cannot
prevent the failure. -/
theorem c4_download_raises (r : Record) :
    r.downloadPlan = Except.error "No downloadable resources" ↔
      r.download_urls = [] := by
  unfold Record.downloadPlan
  by_cases h : r.download_urls = []
  · simp [h]
  · rw [if_neg h]
    simp only [h, iff_false]
    cases hg : r.github_repos with
    | none => simp
    | some gh => cases hu : gh.release_url <;> simp [hu]

/-- C4 (witness): the amended statement evaluated at the counterexample
record. -/
theorem c4_download_raises_witness :
    recC4.downloadPlan = Except.error "No downloadable resources" ↔
      recC4.download_urls = [] :=
  c4_download_raises recC4

/-! ## Claim C5 -/

/-- C5: scanning the versions of a concept DOI for a requested version tag
(with leading `v`s stripped from both sides of the comparison), over
records that all carry a version tag: when no record matches, the result is
absent (`None`), and when some record matches, the first matching record is
returned. -/
theorem c5_get_record_version (recs : List Record) (v : String) :
    ((∀ r ∈ recs, r.version.any (fun rv => !versionMatches rv v) = true) →
      getRecordByVersion recs v = Except.ok none) ∧
    (∀ pre r post rv, recs = pre ++ r :: post → r.version = some rv →
      versionMatches rv v = true →
      (∀ r' ∈ pre, r'.version.any (fun rv' => !versionMatches rv' v) = true) →
      getRecordByVersion recs v = Except.ok (some r)) := by
  constructor
  · induction recs with
    | nil => intro _; rfl
    | cons q rest ih =>
      intro hall
      have hq := hall q (List.mem_cons_self _ _)
      unfold getRecordByVersion
      cases hv : q.version with
      | none => rw [hv] at hq; exact absurd hq (by simp [Option.any])
      | some rv =>
        rw [hv] at hq
        simp only [Option.any, Bool.not_eq_true'] at hq
        simp only [hq, Bool.false_eq_true, if_false]
        exact ih (fun r hr => hall r (List.mem_cons_of_mem _ hr))
  · intro pre r post rv hrecs hver hmatch
    subst hrecs
    induction pre with
    | nil =>
      intro _
      simp [getRecordByVersion, hver, hmatch]
    | cons p pre' ih =>
      intro hpre
      have hp := hpre p (List.mem_cons_self _ _)
      rw [List.cons_append]
      unfold getRecordByVersion
      cases hv : p.version with
      | none => rw [hv] at hp; exact absurd hp (by simp [Option.any])
      | some rv' =>
        rw [hv] at hp
        simp only [Option.any, Bool.not_eq_true'] at hp
        simp only [hp, Bool.false_eq_true, if_false]
        exact ih (fun r' hr' => hpre r' (List.mem_cons_of_mem _ hr'))

/-- C5 (witness): among versions v1.0 and v1.1, requesting
`y-that-does-not-exist` yields absent and requesting `v1.1` yields the
v1.1 record. -/
theorem c5_get_record_version_witness :
    getRecordByVersion [recV10, recV11] "y-that-does-not-exist" = Except.ok none ∧
    getRecordByVersion [recV10, recV11] "v1.1" = Except.ok (some recV11) := by
  constructor
  · exact (c5_get_record_version [recV10, recV11] "y-that-does-not-exist").1 (by decide)
  · exact (c5_get_record_version [recV10, recV11] "v1.1").2 [recV10] recV11 [] "v1.1"
      rfl rfl (by decide) (by decide)

/-! ## Claim C6 -/

/-- C6: constructing a record with empty `download_urls` fails whenever
`closed_access` is false (whatever the remaining fields are), succeeds for
an otherwise valid record when `closed_access` is true, and every
successfully constructed record satisfies the invariant that empty
`download_urls` implies `closed_access`. -/
theorem c6_closed_access_invariant :
    (∀ doi title creators year license keywords communities github_repos version concept_doi,
      (Record.make doi title creators year license [] keywords communities github_repos
        false version concept_doi).isOk = false) ∧
    Record.make "10.5281/zenodo.4691101" "" [] none none [] (some []) [] none true
      none none = Except.ok recC10 ∧
    (∀ doi title creators year license download_urls keywords communities github_repos
        closed_access version concept_doi r,
      Record.make doi title creators year license download_urls keywords communities
          github_repos closed_access version concept_doi = Except.ok r →
      r.download_urls = [] → r.closed_access = true) := by
  refine ⟨?_, by decide, ?_⟩
  · intro doi title creators year license keywords communities github_repos version concept_doi
    unfold Record.make
    cases hg : get_doi doi with
    | error e => simp [Except.isOk, Except.toBool]
    | ok d =>
      by_cases hm : doiMatches d = true
      · simp [hm, Record.build, Record.download_url_falsy, Except.isOk, Except.toBool]
      · simp [hm, Except.isOk, Except.toBool]
  · intro doi title creators year license download_urls keywords communities github_repos
      closed_access version concept_doi r h hnil
    exact (Record.make_ok_fields h).2.2.2 hnil

/-- C6 (witness): the failing and succeeding constructions evaluated at the
concrete DOI `10.5281/zenodo.4691101`, together with the invariant read off
from the successful one. -/
theorem c6_closed_access_invariant_witness :
    (Record.make "10.5281/zenodo.4691101" "" [] none none [] (some []) [] none false
      none none).isOk = false ∧
    recC10.closed_access = true := by
  obtain ⟨h1, h2, h3⟩ := c6_closed_access_invariant
  exact ⟨h1 "10.5281/zenodo.4691101" "" [] none none (some []) [] none none none,
    h3 "10.5281/zenodo.4691101" "" [] none none [] (some []) [] none true none none
      recC10 h2 (by decide)⟩

/-! ## Claim C9 -/

/-- C9: downloading into an initially empty destination, when the fetched
archive unpacks to exactly one top-level entry — a directory whose children
are all plain files — leaves exactly those files directly in the
destination, and the wrapper directory is gone (it is not among the
resulting entries). -/
theorem c9_download_unwrap (r : Record) (wrapper : String) (files : List FsEntry)
    (hurls : r.download_urls ≠ [])
    (hfiles : ∀ e ∈ files, e.isDir = false) :
    r.downloadResult [] [FsEntry.dir wrapper files] = Except.ok files ∧
    FsEntry.dir wrapper files ∉ files := by
  constructor
  · unfold Record.downloadResult Record.downloadPlan
    rw [if_neg hurls]
    cases hg : r.github_repos with
    | none => simp
    | some gh => cases hu : gh.release_url <;> simp [hu]
  · intro hmem
    have := hfiles _ hmem
    simp [FsEntry.isDir] at this

/-- C9 (witness): the unwrap behavior evaluated on a record with one
download URL and an archive unpacking to a wrapper directory holding two
files. -/
theorem c9_download_unwrap_witness :
    recC9.downloadResult [] [FsEntry.dir "w" [FsEntry.file "a", FsEntry.file "b"]] =
      Except.ok [FsEntry.file "a", FsEntry.file "b"] ∧
    FsEntry.dir "w" [FsEntry.file "a", FsEntry.file "b"] ∉
      [FsEntry.file "a", FsEntry.file "b"] :=
  c9_download_unwrap recC9 "w" [FsEntry.file "a", FsEntry.file "b"] (by decide) (by decide)

/-! ## Claim C10 -/

/-- C10: every successfully constructed record has a DOI that is exactly
the Zenodo stem `10.5281/zenodo.` followed by a non-empty digit string,
`Record.id` is exactly that digit suffix, and formatting the id back with
the archive DOI format (prepending the stem) reproduces the DOI. -/
theorem c10_doi_id_roundtrip (doi title : String) (creators : List String)
    (year license : Option String) (download_urls : List String)
    (keywords : Option (List String)) (communities : List (Option String))
    (github_repos : Option GithubRepos) (closed_access : Bool)
    (version concept_doi : Option String) (r : Record)
    (h : Record.make doi title creators year license download_urls keywords communities
      github_repos closed_access version concept_doi = Except.ok r) :
    ∃ ds : List Char, ds ≠ [] ∧ (∀ c ∈ ds, c.isDigit = true) ∧
      r.doi.data = zenodoDoiStem ++ ds ∧
      r.id = ds.asString ∧
      "10.5281/zenodo." ++ r.id = r.doi := by
  have hm : doiMatches r.doi = true := (Record.make_ok_fields h).1
  unfold doiMatches at hm
  simp only [Bool.and_eq_true, decide_eq_true_eq] at hm
  obtain ⟨h1, h2, h3⟩ := hm
  set ds := r.doi.data.drop zenodoDoiStem.length with hds
  have hdig : ∀ c ∈ ds, c.isDigit = true := fun c hc => List.all_eq_true.mp h3 c hc
  have hsplit : r.doi.data = zenodoDoiStem ++ ds := isPre_split _ _ h1
  have hid : r.id = ds.asString := by
    unfold Record.id
    rw [hsplit, pyDeleteOccs_self_append _ _ (by decide) (pyDeleteOccs_digits ds hdig)]
  refine ⟨ds, h2, hdig, hsplit, hid, ?_⟩
  apply String.ext
  rw [String.data_append, hid, hsplit]
  rfl

/-- C10 (witness): the round trip evaluated at the record built from the
bare DOI `10.5281/zenodo.4691101`. -/
theorem c10_doi_id_roundtrip_witness :
    ∃ ds : List Char, ds ≠ [] ∧ (∀ c ∈ ds, c.isDigit = true) ∧
      recC10.doi.data = zenodoDoiStem ++ ds ∧
      recC10.id = ds.asString ∧
      "10.5281/zenodo." ++ recC10.id = recC10.doi :=
  c10_doi_id_roundtrip "10.5281/zenodo.4691101" "" [] none none [] (some []) [] none true
    none none recC10 (by decide)

end Cldfzenodo
